import Mathlib

/-
  Verification development for the healthchat audio pipeline
  (backend/healthchat/agents/audio_agent.py).

  The five pipeline tasks of `AudioAgent` are shallowly embedded as pure
  functions.  An asyncio.Queue carrying payloads or the `None` sentinel is
  modelled as a `List (Option _)` of the items the consuming task would pull,
  in pull order; a task that would `await queue.get()` with no further item
  ever arriving is modelled by a `terminated := false` result (it blocks).
  The three external OpenAI capabilities are parameters:
    - the transcriber  `stt   : Bytes -> Option String`   (None on exception),
    - the generator    `gen   : List Msg -> List String`  (its streamed chunks,
      a function of the conversation history it is called with; a mid-stream
      failure is the same as the stream ending, lines 78-90),
    - the synthesizer  `synth : String -> List Bytes`     (its byte chunks).
  Bytes are lists of naturals; byte values never matter to any claim.
-/

/-- Raw audio bytes. -/
abbrev Bytes := List Nat

/-- A structured or binary frame sent to the client over the websocket
(send_json / send_bytes calls throughout the file). -/
inductive ClientEvent
  | status (message : String)
  | transcript (data : String)
  | llmResponseStart
  | llmChunk (data : String)
  | audioEnd
  | binaryFrame (data : Bytes)
deriving Repr, DecidableEq

/-- An inbound websocket message, as inspected by `_receive_from_client`
(lines 106-118). -/
inductive ClientMsg
  | binary (data : Bytes)
  | text (s : String)
  | disconnect
deriving Repr, DecidableEq

/-- The receive loop body, lines 108-116: a non-empty binary frame is queued
as a payload (`message.get("bytes")` is falsy for empty bytes, so an empty
binary frame is skipped); the text frame "EndOfStream" queues the `None`
sentinel; any other text frame is ignored; a disconnect breaks the loop. -/
def receiveLoopItems : List ClientMsg → List (Option Bytes)
  | [] => []
  | ClientMsg.disconnect :: _ => []
  | ClientMsg.binary d :: rest =>
      if d.isEmpty then receiveLoopItems rest else some d :: receiveLoopItems rest
  | ClientMsg.text s :: rest =>
      if s = "EndOfStream" then none :: receiveLoopItems rest else receiveLoopItems rest

/-- `_receive_from_client` including its `finally` block (lines 119-124): the
items placed on the audio input queue are the loop items followed by one final
`None`.  The same `finally` block also puts one `None` directly into each of
the transcript, llm-response and tts-audio queues; that is the only way those
queues ever receive a sentinel, since no stage puts `None` anywhere. -/
def receive_from_client (msgs : List ClientMsg) : List (Option Bytes) :=
  receiveLoopItems msgs ++ [none]

/-- What one utterance-cycle of `_process_stt` produces (events sent to the
client, items put on the transcript queue, buffers handed to the transcriber). -/
structure UttOut where
  events : List ClientEvent
  transcripts : List String
  calls : List Bytes
deriving Repr, DecidableEq

/-- Lines 138-151: join the accumulated fragments; an empty buffer is skipped
with no event (`continue`, line 139); otherwise send the "Transcribing..."
status, call the transcriber, and on a truthy transcript (`if transcript:`,
falsy for both None and the empty string) send the transcript event and push
the transcript downstream, else send the "Transcription failed." status. -/
def sttUtterance (stt : Bytes → Option String) (chunks : List Bytes) : UttOut :=
  let full := chunks.flatten
  if full = [] then ⟨[], [], []⟩
  else
    match stt full with
    | some t =>
        if t = "" then
          ⟨[ClientEvent.status "Transcribing...", ClientEvent.status "Transcription failed."],
           [], [full]⟩
        else
          ⟨[ClientEvent.status "Transcribing...", ClientEvent.transcript t], [t], [full]⟩
    | none =>
        ⟨[ClientEvent.status "Transcribing...", ClientEvent.status "Transcription failed."],
         [], [full]⟩

/-- Cumulative output of `_process_stt`; `terminated = false` means the task
is left awaiting a queue item that never arrives. -/
structure SttOut where
  events : List ClientEvent
  transcripts : List String
  calls : List Bytes
  terminated : Bool
deriving Repr, DecidableEq

/-- Prepends one utterance-cycle output to the output of the rest of the run. -/
def mergeStt (u : UttOut) (k : SttOut) : SttOut :=
  ⟨u.events ++ k.events, u.transcripts ++ k.transcripts, u.calls ++ k.calls, k.terminated⟩

/-- The two nested loops of `_process_stt` (lines 126-151) as a state machine
on queue items.  State `none` is the top of the outer loop (line 128, awaiting
`first_chunk`); state `some acc` is the inner accumulation loop (lines 131-136)
holding the fragments collected so far.  A sentinel in state `none` breaks the
outer loop (line 129: the task terminates); a sentinel in state `some acc`
only ends the accumulation and processes the buffer; an exhausted item list
leaves the task blocked on `queue.get()`. -/
def processSttAux (stt : Bytes → Option String) :
    Option (List Bytes) → List (Option Bytes) → SttOut
  | _, [] => ⟨[], [], [], false⟩
  | none, none :: _ => ⟨[], [], [], true⟩
  | none, some b :: rest => processSttAux stt (some [b]) rest
  | some acc, some b :: rest => processSttAux stt (some (acc ++ [b])) rest
  | some acc, none :: rest =>
      mergeStt (sttUtterance stt acc) (processSttAux stt none rest)

/-- `_process_stt` run against the full sequence of items it would pull from
the audio input queue. -/
def process_stt (stt : Bytes → Option String) (items : List (Option Bytes)) : SttOut :=
  processSttAux stt none items

/-- One conversation-history entry, line 50 and lines 158/176. -/
structure Msg where
  role : String
  content : String
deriving Repr, DecidableEq

/-- The system persona directive (lines 7-39).  Only its role tag matters to
any claim, so its content is abbreviated to its opening line. -/
def LLM_SYSTEM_PROMPT : String :=
  "Engage in a conversation as a nurse with an elderly patient."

/-- The single system message history starts with (line 50). -/
def systemMsg : Msg := ⟨"system", LLM_SYSTEM_PROMPT⟩

/-- `self.conversation_history` right after `__init__` (line 50). -/
def initialHistory : List Msg := [systemMsg]

/-- Line 165. -/
def end_punc : List String := [".", "!", "?"]

/-- The boundary test of line 171: `len(chunk) == 1 and chunk in end_punc`. -/
def isSentenceEnd (chunk : String) : Bool :=
  chunk.length == 1 && end_punc.contains chunk

/-- The sentence pushes of lines 163-173: every chunk is appended to the
current-sentence accumulator; when a chunk passes the boundary test the joined
accumulator (punctuation chunk included) is pushed and the accumulator reset.
Returns the sentences pushed to the llm response queue, in push order; a
trailing accumulator left when the stream ends is dropped. -/
def segmentSentences (lastSentence : List String) : List String → List String
  | [] => []
  | c :: cs =>
      if isSentenceEnd c then
        String.join (lastSentence ++ [c]) :: segmentSentences [] cs
      else
        segmentSentences (lastSentence ++ [c]) cs

/-- One iteration of the outer loop of `_process_llm` for one transcript
(lines 158-178): append the user message, consume the generator stream started
on the updated history (line 82 reads `self.conversation_history` after the
line 158 append), push punctuation-bounded sentences, and append the assistant
message exactly when the stream produced at least one chunk.  Returns the new
history, the sentences pushed, and the events sent to the client. -/
def llmTurn (gen : List Msg → List String) (history : List Msg) (transcript : String) :
    List Msg × List String × List ClientEvent :=
  let h1 := history ++ [⟨"user", transcript⟩]
  let chunks := gen h1
  let events := [ClientEvent.status "Thinking...", ClientEvent.llmResponseStart]
      ++ chunks.map ClientEvent.llmChunk
  if chunks = [] then
    (h1, segmentSentences [] chunks, events ++ [ClientEvent.status "AI failed to respond."])
  else
    (h1 ++ [⟨"assistant", String.join chunks⟩], segmentSentences [] chunks, events)

/-- The history after one turn. -/
def llmTurnHist (gen : List Msg → List String) (history : List Msg) (transcript : String) :
    List Msg :=
  (llmTurn gen history transcript).1

/-- The history after `_process_llm` has handled a list of transcripts in
order. -/
def runTurns (gen : List Msg → List String) (history : List Msg) (ts : List String) :
    List Msg :=
  ts.foldl (llmTurnHist gen) history

/-- Cumulative output of `_process_llm`. -/
structure LlmOut where
  history : List Msg
  sentences : List String
  events : List ClientEvent
  terminated : Bool
deriving Repr, DecidableEq

/-- The outer loop of `_process_llm` (lines 153-178) over the items it would
pull from the transcript queue: a sentinel breaks the loop (line 156) with
nothing pushed downstream; a transcript runs one turn. -/
def process_llm (gen : List Msg → List String) (history : List Msg) :
    List (Option String) → LlmOut
  | [] => ⟨history, [], [], false⟩
  | none :: _ => ⟨history, [], [], true⟩
  | some t :: rest =>
      let r := llmTurn gen history t
      let k := process_llm gen r.1 rest
      ⟨k.history, r.2.1 ++ k.sentences, r.2.2 ++ k.events, k.terminated⟩

/-- An item on the tts audio queue.  In the source the queue carries BytesIO
objects, the bytes literal `--AUDIO_END--` and `None`; a BytesIO object never
compares equal to a bytes literal, so the three cases are disjoint and modelled
as a tagged type. -/
inductive TtsItem
  | audioBuf (data : Bytes)
  | audioEndMarker
  | sessionEnd
deriving Repr, DecidableEq

/-- Python str.strip(): remove leading and trailing whitespace characters. -/
def pyStrip (s : String) : String :=
  ⟨((s.data.dropWhile Char.isWhitespace).reverse.dropWhile Char.isWhitespace).reverse⟩

/-- Lines 185-201 for one sentence pulled from the llm response queue:
`sentences = [full_response.strip()]` is a one-element list; an empty stripped
sentence is skipped (line 189); otherwise the synthesizer byte chunks are
joined into one buffer which is queued; the `--AUDIO_END--` marker is queued
afterwards in every case (line 201 sits outside the `for`). -/
def ttsSentenceItems (synth : String → List Bytes) (fullResponse : String) : List TtsItem :=
  let s := pyStrip fullResponse
  (if s = "" then [] else [TtsItem.audioBuf (synth s).flatten]) ++ [TtsItem.audioEndMarker]

/-- Cumulative output of `_process_tts`. -/
structure TtsOut where
  items : List TtsItem
  events : List ClientEvent
  terminated : Bool
deriving Repr, DecidableEq

/-- The loop of `_process_tts` (lines 180-201) over the items it would pull
from the llm response queue: a sentinel breaks the loop (line 183) with nothing
pushed downstream. -/
def process_tts (synth : String → List Bytes) : List (Option String) → TtsOut
  | [] => ⟨[], [], false⟩
  | none :: _ => ⟨[], [], true⟩
  | some r :: rest =>
      let k := process_tts synth rest
      ⟨ttsSentenceItems synth r ++ k.items,
       ClientEvent.status "Streaming audio..." :: k.events, k.terminated⟩

/-- What `_send_tts_audio` sends to the client. -/
structure SendOut where
  events : List ClientEvent
  terminated : Bool
deriving Repr, DecidableEq

/-- The loop of `_send_tts_audio` (lines 203-211): a sentinel breaks the loop;
the `--AUDIO_END--` marker becomes an `audio_end` event; any other item is sent
as a binary frame. -/
def send_tts_audio : List TtsItem → SendOut
  | [] => ⟨[], false⟩
  | TtsItem.sessionEnd :: _ => ⟨[], true⟩
  | TtsItem.audioEndMarker :: rest =>
      ⟨ClientEvent.audioEnd :: (send_tts_audio rest).events, (send_tts_audio rest).terminated⟩
  | TtsItem.audioBuf d :: rest =>
      ⟨ClientEvent.binaryFrame d :: (send_tts_audio rest).events, (send_tts_audio rest).terminated⟩

/-- The execution context a piece of work runs in under the asyncio event loop
plus its default thread-pool executor. -/
inductive ExecCtx
  | eventLoop
  | workerThread
deriving Repr, DecidableEq

/-- The units of work involved in synthesizing one sentence via the Python
generator function `_generate_tts_audio` (lines 92-103): evaluating
`self._generate_tts_audio(sentence)` only creates the generator object (the
body of a generator function runs lazily), and each chunk of the body runs at
one pull of the `for` loop. -/
inductive TtsWorkUnit
  | createGenerator
  | pullSynthChunk (i : Nat)
deriving Repr, DecidableEq

/-- Lines 190-194 as a trace of (work unit, execution context) pairs for a
synthesis producing `numChunks` byte chunks: `run_in_executor` evaluates the
call `self._generate_tts_audio(sentence)` — i.e. only the generator creation —
on a worker thread, and the subsequent `for chunk in audio_generator` loop
performs every pull (where the synthesis request actually executes) on the
event loop thread. -/
def ttsOffloadTrace (numChunks : Nat) : List (TtsWorkUnit × ExecCtx) :=
  (TtsWorkUnit.createGenerator, ExecCtx.workerThread)
    :: (List.range numChunks).map (fun i => (TtsWorkUnit.pullSynthChunk i, ExecCtx.eventLoop))

/-- Count of history entries carrying a given role. -/
def countRole (r : String) (h : List Msg) : Nat :=
  h.countP (fun m => m.role == r)

/-- The role of the last entry, or `p` for the empty list. -/
def lastRole (p : String) : List Msg → String
  | [] => p
  | m :: rest => lastRole m.role rest

/-- Every assistant entry is immediately preceded by a user entry, where the
entry before the head is deemed to carry role `p`. -/
def assistantPairedFrom (p : String) : List Msg → Bool
  | [] => true
  | m :: rest => ((m.role != "assistant") || (p == "user")) && assistantPairedFrom m.role rest

/-- Every assistant entry in the history is immediately preceded by a user
entry. -/
def assistantPaired (h : List Msg) : Bool :=
  assistantPairedFrom "" h

/- Helper lemmas. -/

theorem lastElem_append_single {α : Type} (l : List α) (a : α) :
    (l ++ [a]).getLast? = some a := by
  induction l with
  | nil => rfl
  | cons x xs ih =>
      cases xs with
      | nil => rfl
      | cons y ys => simpa using ih

theorem processSttAux_accum (stt : Bytes → Option String) (fs : List Bytes)
    (acc : List Bytes) (rest : List (Option Bytes)) :
    processSttAux stt (some acc) (fs.map some ++ none :: rest)
      = mergeStt (sttUtterance stt (acc ++ fs)) (processSttAux stt none rest) := by
  induction fs generalizing acc with
  | nil => simp [processSttAux]
  | cons f fs ih =>
      show processSttAux stt (some (acc ++ [f])) (fs.map some ++ none :: rest) = _
      rw [ih]
      simp

theorem processStt_utterance (stt : Bytes → Option String) (fragments : List Bytes)
    (rest : List (Option Bytes)) (hne : fragments ≠ []) :
    process_stt stt (fragments.map some ++ none :: rest)
      = mergeStt (sttUtterance stt fragments) (process_stt stt rest) := by
  cases fragments with
  | nil => exact absurd rfl hne
  | cons f fs =>
      show processSttAux stt (some [f]) (fs.map some ++ none :: rest) = _
      rw [processSttAux_accum]
      rfl

theorem sttUtterance_calls (stt : Bytes → Option String) (chunks : List Bytes)
    (h : chunks.flatten ≠ []) :
    (sttUtterance stt chunks).calls = [chunks.flatten] := by
  unfold sttUtterance
  simp only [if_neg h]
  cases stt chunks.flatten with
  | none => rfl
  | some t =>
      by_cases ht : t = "" <;> simp [ht]

theorem segment_no_boundary (pre : List String) (chunks : List String)
    (h : ∀ c ∈ chunks, isSentenceEnd c = false) :
    segmentSentences pre chunks = [] := by
  induction chunks generalizing pre with
  | nil => rfl
  | cons c cs ih =>
      have hc := h c (List.mem_cons_self c cs)
      simp only [segmentSentences, hc, if_neg]
      exact ih _ (fun x hx => h x (List.mem_cons_of_mem _ hx))

theorem segment_boundary (pre nb : List String) (p : String) (rest : List String)
    (hnb : ∀ c ∈ nb, isSentenceEnd c = false) (hp : isSentenceEnd p = true) :
    segmentSentences pre (nb ++ p :: rest)
      = String.join (pre ++ nb ++ [p]) :: segmentSentences [] rest := by
  induction nb generalizing pre with
  | nil => simp [segmentSentences, hp]
  | cons c cs ih =>
      have hc := hnb c (by simp)
      rw [List.cons_append]
      simp only [segmentSentences, hc, if_neg]
      rw [ih (pre ++ [c]) (fun x hx => hnb x (by simp [hx]))]
      simp

theorem segment_count (pre chunks : List String) :
    (segmentSentences pre chunks).length = chunks.countP isSentenceEnd := by
  induction chunks generalizing pre with
  | nil => rfl
  | cons c cs ih =>
      by_cases hc : isSentenceEnd c = true
      · simp [segmentSentences, hc, List.countP_cons, ih]
      · have hc2 : isSentenceEnd c = false := by simpa using hc
        have hih := ih (pre ++ [c])
        simp only [segmentSentences, hc2, if_neg, List.countP_cons]
        simp [hc2, hih]

theorem isSentenceEnd_multichar (c : String) (hc : 2 ≤ c.length) :
    isSentenceEnd c = false := by
  have h1 : (c.length == 1) = false := by
    have : c.length ≠ 1 := by omega
    simpa using this
  simp [isSentenceEnd, h1]

theorem countRole_append (r : String) (l₁ l₂ : List Msg) :
    countRole r (l₁ ++ l₂) = countRole r l₁ + countRole r l₂ := by
  simp [countRole, List.countP_append]

theorem llmTurnHist_eq (gen : List Msg → List String) (h : List Msg) (t : String) :
    llmTurnHist gen h t
      = if gen (h ++ [⟨"user", t⟩]) = [] then h ++ [⟨"user", t⟩]
        else h ++ [⟨"user", t⟩, ⟨"assistant", String.join (gen (h ++ [⟨"user", t⟩]))⟩] := by
  unfold llmTurnHist llmTurn
  by_cases hc : gen (h ++ [⟨"user", t⟩]) = [] <;> simp [hc]

theorem assistantPairedFrom_append (p : String) (l₁ l₂ : List Msg) :
    assistantPairedFrom p (l₁ ++ l₂)
      = (assistantPairedFrom p l₁ && assistantPairedFrom (lastRole p l₁) l₂) := by
  induction l₁ generalizing p with
  | nil => simp [assistantPairedFrom, lastRole]
  | cons m ms ih => simp [assistantPairedFrom, lastRole, ih, Bool.and_assoc]

theorem paired_append_user (h : List Msg) (t : String)
    (hp : assistantPaired h = true) :
    assistantPaired (h ++ [⟨"user", t⟩]) = true := by
  unfold assistantPaired at *
  rw [assistantPairedFrom_append, hp]
  have hu : (("user" : String) != "assistant") = true := by decide
  simp [assistantPairedFrom, hu]

theorem paired_append_pair (h : List Msg) (t r : String)
    (hp : assistantPaired h = true) :
    assistantPaired (h ++ [⟨"user", t⟩, ⟨"assistant", r⟩]) = true := by
  unfold assistantPaired at *
  rw [assistantPairedFrom_append, hp]
  have hu : (("user" : String) != "assistant") = true := by decide
  have huu : (("user" : String) == "user") = true := by decide
  simp [assistantPairedFrom, hu, huu]

theorem runTurns_facts (gen : List Msg → List String) (ts : List String) :
    ∀ h : List Msg,
      (∃ tail, runTurns gen h ts = h ++ tail)
      ∧ countRole "system" (runTurns gen h ts) = countRole "system" h
      ∧ (runTurns gen h ts).length + countRole "assistant" h
          = h.length + ts.length + countRole "assistant" (runTurns gen h ts)
      ∧ (assistantPaired h = true → assistantPaired (runTurns gen h ts) = true) := by
  induction ts with
  | nil =>
      intro h
      exact ⟨⟨[], by simp [runTurns]⟩, rfl, by simp [runTurns], fun hp => hp⟩
  | cons t ts ih =>
      intro h
      have hstep : runTurns gen h (t :: ts) = runTurns gen (llmTurnHist gen h t) ts := rfl
      have hUS : countRole "system" [(⟨"user", t⟩ : Msg)] = 0 := by
        simp [countRole, List.countP_cons]
      have hUA : countRole "assistant" [(⟨"user", t⟩ : Msg)] = 0 := by
        simp [countRole, List.countP_cons]
      by_cases hc : gen (h ++ [⟨"user", t⟩]) = []
      · have hh : llmTurnHist gen h t = h ++ [⟨"user", t⟩] := by
          rw [llmTurnHist_eq, if_pos hc]
        obtain ⟨⟨tail, htail⟩, hsys, hlen, hpair⟩ := ih (h ++ [⟨"user", t⟩])
        refine ⟨⟨⟨"user", t⟩ :: tail, ?_⟩, ?_, ?_, ?_⟩
        · rw [hstep, hh, htail]; simp
        · rw [hstep, hh, hsys, countRole_append, hUS]
          omega
        · rw [hstep, hh]
          have h2 : countRole "assistant" (h ++ [⟨"user", t⟩]) = countRole "assistant" h := by
            rw [countRole_append, hUA]
            omega
          rw [h2] at hlen
          simp only [List.length_append, List.length_cons, List.length_nil] at hlen
          simp only [List.length_cons]
          omega
        · intro hph
          rw [hstep, hh]
          exact hpair (paired_append_user h t hph)
      · have hh : llmTurnHist gen h t
            = h ++ [⟨"user", t⟩, ⟨"assistant", String.join (gen (h ++ [⟨"user", t⟩]))⟩] := by
          rw [llmTurnHist_eq, if_neg hc]
        have hPS : countRole "system"
            [(⟨"user", t⟩ : Msg), ⟨"assistant", String.join (gen (h ++ [⟨"user", t⟩]))⟩] = 0 := by
          simp [countRole, List.countP_cons]
        have hPA : countRole "assistant"
            [(⟨"user", t⟩ : Msg), ⟨"assistant", String.join (gen (h ++ [⟨"user", t⟩]))⟩] = 1 := by
          simp [countRole, List.countP_cons]
        obtain ⟨⟨tail, htail⟩, hsys, hlen, hpair⟩ :=
          ih (h ++ [⟨"user", t⟩, ⟨"assistant", String.join (gen (h ++ [⟨"user", t⟩]))⟩])
        refine ⟨⟨⟨"user", t⟩ :: ⟨"assistant", String.join (gen (h ++ [⟨"user", t⟩]))⟩ :: tail, ?_⟩,
          ?_, ?_, ?_⟩
        · rw [hstep, hh, htail]; simp
        · rw [hstep, hh, hsys, countRole_append, hPS]
          omega
        · rw [hstep, hh]
          have h2 : countRole "assistant"
              (h ++ [⟨"user", t⟩, ⟨"assistant", String.join (gen (h ++ [⟨"user", t⟩]))⟩])
              = countRole "assistant" h + 1 := by
            rw [countRole_append, hPA]
          rw [h2] at hlen
          simp only [List.length_append, List.length_cons, List.length_nil] at hlen
          simp only [List.length_cons]
          omega
        · intro hph
          rw [hstep, hh]
          exact hpair (paired_append_pair h t _ hph)

/-- Claim C1, counterexample: the client streams one audio fragment and then
disconnects, so the only session-end marker the cleanup places on the audio
input queue arrives while `_process_stt` is mid-accumulation.  The stage
consumes that marker as an end-of-utterance, transcribes the buffer, pushes
the transcript (never a marker) downstream, and is then left blocked forever
on an empty queue (`terminated = false`) — so neither the claimed per-stage
marker propagation nor the claimed termination of all stage tasks holds. -/
theorem C1_counterexample :
    process_stt (fun _ => some "T") [some [1], none]
      = ⟨[ClientEvent.status "Transcribing...", ClientEvent.transcript "T"],
         ["T"], [[1]], false⟩ := by
  decide

/-- Claim C1 (amended): downstream queues receive a session-end marker only
because the ingest cleanup path puts one into every queue directly (the final
`none` of `receive_from_client` models the input queue; the same `finally`
block seeds the other three queues).  A stage that pulls the marker at the top
of its loop terminates at once — pushing nothing, in particular no marker — to
its output queue; termination of the Transcription Stage is only guaranteed
when the marker arrives at the top of its outer loop. -/
theorem C1_shutdown_via_ingest_cleanup :
    (∀ msgs : List ClientMsg, (receive_from_client msgs).getLast? = some none)
    ∧ (∀ (stt : Bytes → Option String) (rest : List (Option Bytes)),
        process_stt stt (none :: rest) = ⟨[], [], [], true⟩)
    ∧ (∀ (gen : List Msg → List String) (h : List Msg) (rest : List (Option String)),
        process_llm gen h (none :: rest) = ⟨h, [], [], true⟩)
    ∧ (∀ (synth : String → List Bytes) (rest : List (Option String)),
        process_tts synth (none :: rest) = ⟨[], [], true⟩)
    ∧ (∀ rest : List TtsItem, send_tts_audio (TtsItem.sessionEnd :: rest) = ⟨[], true⟩) :=
  ⟨fun msgs => lastElem_append_single (receiveLoopItems msgs) none,
   fun _ _ => rfl, fun _ _ _ => rfl, fun _ _ => rfl, fun _ => rfl⟩

/-- Claim C2, counterexample: two audio fragments are accumulated when the
session-end marker arrives (client disconnected mid-utterance, the cleanup
`none` is the next item).  Contrary to the claim, the partial buffer is not
discarded: the transcriber is invoked on the joined buffer `[7, 8]` and the
transcript is pushed onto the transcript queue. -/
theorem C2_counterexample :
    process_stt (fun _ => some "T") [some [7], some [8], none]
      = ⟨[ClientEvent.status "Transcribing...", ClientEvent.transcript "T"],
         ["T"], [[7, 8]], false⟩ := by
  decide

/-- Claim C2 (amended): a session-end marker arriving mid-accumulation is
indistinguishable from an end-of-utterance marker (both are the `None`
sentinel): it ends the accumulation and the partial buffer is processed
exactly like a completed utterance — joined, transcribed when non-empty, a
successful transcript pushed downstream — after which the stage continues with
the remaining input instead of terminating. -/
theorem C2_marker_mid_accumulation_flushes :
    ∀ (stt : Bytes → Option String) (fragments : List Bytes) (rest : List (Option Bytes)),
      fragments ≠ [] →
      process_stt stt (fragments.map some ++ none :: rest)
        = mergeStt (sttUtterance stt fragments) (process_stt stt rest) :=
  fun stt fragments rest hne => processStt_utterance stt fragments rest hne

/-- Witness for C2 at a concrete input. -/
theorem C2_witness :
    process_stt (fun _ => some "T") ([[1]].map some ++ none :: [])
      = mergeStt (sttUtterance (fun _ => some "T") [[1]])
          (process_stt (fun _ => some "T") []) :=
  C2_marker_mid_accumulation_flushes (fun _ => some "T") [[1]] [] (by decide)

/-- Claim C3: a sentence is pushed to the synthesis queue exactly at chunks
passing the single-character punctuation test (one push per boundary chunk);
the pushed sentence is the join of all chunks since the previous boundary,
boundary chunk included; a chunk of length at least two never passes the test;
a trailing fragment with no boundary chunk is never pushed; and the stream
["Hi", "!", "Bye", "!"] yields exactly ["Hi!", "Bye!"] in order. -/
theorem C3_sentence_segmentation :
    (∀ (pre nb : List String) (p : String) (rest : List String),
        (∀ c ∈ nb, isSentenceEnd c = false) → isSentenceEnd p = true →
        segmentSentences pre (nb ++ p :: rest)
          = String.join (pre ++ nb ++ [p]) :: segmentSentences [] rest)
    ∧ (∀ (pre chunks : List String), (∀ c ∈ chunks, isSentenceEnd c = false) →
        segmentSentences pre chunks = [])
    ∧ (∀ chunks : List String,
        (segmentSentences [] chunks).length = chunks.countP isSentenceEnd)
    ∧ (∀ c : String, 2 ≤ c.length → isSentenceEnd c = false)
    ∧ segmentSentences [] ["Hi", "!", "Bye", "!"] = ["Hi!", "Bye!"] :=
  ⟨segment_boundary, segment_no_boundary, segment_count [],
   isSentenceEnd_multichar, by decide⟩

/-- Witness for C3 at a concrete input. -/
theorem C3_witness :
    segmentSentences [] (["Hi"] ++ "!" :: ["Bye", "!"])
      = String.join ([] ++ ["Hi"] ++ ["!"]) :: segmentSentences [] ["Bye", "!"] :=
  C3_sentence_segmentation.1 [] ["Hi"] "!" ["Bye", "!"] (by decide) (by decide)

/-- Claim C4: for a sequence of fragments followed by an end-of-utterance
marker on the input queue, the buffer handed to the transcriber is exactly the
concatenation of the fragments in arrival order (nothing duplicated, dropped
or reordered), and it is the only transcriber call for that utterance. -/
theorem C4_transcriber_gets_exact_concatenation :
    ∀ (stt : Bytes → Option String) (fragments : List Bytes) (rest : List (Option Bytes)),
      fragments.flatten ≠ [] →
      (process_stt stt (fragments.map some ++ none :: rest)).calls
        = fragments.flatten :: (process_stt stt rest).calls := by
  intro stt fragments rest hf
  have hne : fragments ≠ [] := by
    intro h
    rw [h] at hf
    exact hf rfl
  rw [processStt_utterance stt fragments rest hne]
  show (sttUtterance stt fragments).calls ++ (process_stt stt rest).calls = _
  rw [sttUtterance_calls stt fragments hf]
  rfl

/-- Witness for C4 at a concrete input. -/
theorem C4_witness :
    (process_stt (fun _ => none) ([[1], [2]].map some ++ none :: [])).calls
      = [[1], [2]].flatten :: (process_stt (fun _ => none) []).calls :=
  C4_transcriber_gets_exact_concatenation (fun _ => none) [[1], [2]] [] (by decide)

/-- Claim C5, counterexample: one turn whose generator stream fails (produces
no chunks).  Zero turns complete, yet the user message is still appended: the
history has 2 messages — an even number, so no value of N satisfies the
claimed 1 + 2N count — and its user message is followed by no assistant
reply. -/
theorem C5_counterexample :
    runTurns (fun _ => []) initialHistory ["hello"]
      = [systemMsg, ⟨"user", "hello"⟩]
    ∧ countRole "assistant" (runTurns (fun _ => []) initialHistory ["hello"]) = 0
    ∧ (runTurns (fun _ => []) initialHistory ["hello"]).length ≠ 1 + 2 * 0 := by
  decide

/-- Claim C5 (amended): conversation history is append-only and always starts
with the single system message; each handled transcript appends one user
message, plus one assistant message exactly when its generator stream was
non-empty, so after processing the transcripts `ts` the length is
1 + (number of transcripts) + (number of assistant messages), every assistant
message is immediately preceded by a user message, and in the failure-free
case (one assistant message per transcript) the length is the claimed
1 + 2N. -/
theorem C5_history_invariants :
    ∀ (gen : List Msg → List String) (ts : List String),
      (∃ tail, runTurns gen initialHistory ts = initialHistory ++ tail)
      ∧ (runTurns gen initialHistory ts).head? = some systemMsg
      ∧ countRole "system" (runTurns gen initialHistory ts) = 1
      ∧ assistantPaired (runTurns gen initialHistory ts) = true
      ∧ (runTurns gen initialHistory ts).length
          = 1 + ts.length + countRole "assistant" (runTurns gen initialHistory ts)
      ∧ (countRole "assistant" (runTurns gen initialHistory ts) = ts.length →
          (runTurns gen initialHistory ts).length = 1 + 2 * ts.length) := by
  intro gen ts
  obtain ⟨⟨tail, htail⟩, hsys, hlen, hpair⟩ := runTurns_facts gen ts initialHistory
  have hsys1 : countRole "system" initialHistory = 1 := by decide
  have hass0 : countRole "assistant" initialHistory = 0 := by decide
  have hlen1 : initialHistory.length = 1 := by decide
  have hpi : assistantPaired initialHistory = true := by decide
  rw [hass0, hlen1] at hlen
  refine ⟨⟨tail, htail⟩, ?_, ?_, hpair hpi, ?_, ?_⟩
  · rw [htail]; rfl
  · rw [hsys, hsys1]
  · omega
  · intro hN
    omega

/-- Witness for C5 at a concrete input: a generator that always answers with
the chunks ["Hello", "."] completes the single turn, and the history length is
exactly 1 + 2 * 1. -/
theorem C5_witness :
    (runTurns (fun _ => ["Hello", "."]) initialHistory ["hi"]).length = 1 + 2 * 1 := by
  have h := (C5_history_invariants (fun _ => ["Hello", "."]) ["hi"]).2.2.2.2.2
  exact h (by decide)

/-- Claim C6: when the transcriber call fails for an utterance, nothing is
enqueued onto the transcript queue for it, and therefore the conversation
history — which only `_process_llm` ever mutates, one user message per pulled
transcript — is left exactly as it was. -/
theorem C6_transcriber_failure_leaves_history :
    ∀ (stt : Bytes → Option String) (chunks : List Bytes)
      (gen : List Msg → List String) (h : List Msg),
      stt chunks.flatten = none →
      (sttUtterance stt chunks).transcripts = []
      ∧ runTurns gen h (sttUtterance stt chunks).transcripts = h := by
  intro stt chunks gen h hstt
  have ht : (sttUtterance stt chunks).transcripts = [] := by
    unfold sttUtterance
    by_cases hf : chunks.flatten = []
    · simp [hf]
    · simp [hf, hstt]
  exact ⟨ht, by rw [ht]; rfl⟩

/-- Witness for C6 at a concrete input. -/
theorem C6_witness :
    (sttUtterance (fun _ => none) [[1]]).transcripts = []
    ∧ runTurns (fun _ => []) initialHistory
        (sttUtterance (fun _ => none) [[1]]).transcripts = initialHistory :=
  C6_transcriber_failure_leaves_history (fun _ => none) [[1]] (fun _ => []) initialHistory rfl

/-- Claim C7, counterexample: an utterance whose accumulated buffer is empty
is skipped silently (`continue`, line 139) — no status event at all is sent,
contradicting the claimed "transcription failed" event for the empty-buffer
case (the transcriber here would even succeed, but is never reached). -/
theorem C7_counterexample :
    sttUtterance (fun _ => some "T") [[]] = ⟨[], [], []⟩ := by
  decide

/-- Claim C7 (amended): on an empty accumulated buffer the cycle is dropped
silently — no event is emitted and nothing is enqueued; on a transcriber
failure for a non-empty buffer the stage emits the "Transcribing..." and then
"Transcription failed." status events and enqueues nothing.  In both cases the
turn is dropped with no retry. -/
theorem C7_failure_and_empty_buffer :
    ∀ (stt : Bytes → Option String) (chunks : List Bytes),
      (chunks.flatten = [] → sttUtterance stt chunks = ⟨[], [], []⟩)
      ∧ (chunks.flatten ≠ [] → stt chunks.flatten = none →
          sttUtterance stt chunks
            = ⟨[ClientEvent.status "Transcribing...",
                ClientEvent.status "Transcription failed."], [], [chunks.flatten]⟩) := by
  intro stt chunks
  constructor
  · intro hf
    unfold sttUtterance
    simp [hf]
  · intro hf hstt
    unfold sttUtterance
    simp [hf, hstt]

/-- Witness for C7 at a concrete input. -/
theorem C7_witness :
    sttUtterance (fun _ => none) [[1]]
      = ⟨[ClientEvent.status "Transcribing...",
          ClientEvent.status "Transcription failed."], [], [[1]]⟩ :=
  (C7_failure_and_empty_buffer (fun _ => none) [[1]]).2 (by decide) rfl

/-- Claim C8: for a non-empty (stripped) sentence, `_process_tts` queues
exactly one audio buffer holding the synthesizer byte chunks joined in
production order, followed by exactly one audio-end marker, and
`_send_tts_audio` turns them into exactly one binary frame carrying those
bytes followed by exactly one audio_end event. -/
theorem C8_sentence_audio_delivery :
    ∀ (synth : String → List Bytes) (s : String) (rest : List (Option String)),
      pyStrip s ≠ "" →
      (process_tts synth (some s :: rest)).items
        = TtsItem.audioBuf (synth (pyStrip s)).flatten :: TtsItem.audioEndMarker
            :: (process_tts synth rest).items
      ∧ send_tts_audio
          [TtsItem.audioBuf (synth (pyStrip s)).flatten, TtsItem.audioEndMarker,
           TtsItem.sessionEnd]
          = ⟨[ClientEvent.binaryFrame (synth (pyStrip s)).flatten, ClientEvent.audioEnd],
             true⟩ := by
  intro synth s rest hs
  constructor
  · show ttsSentenceItems synth s ++ (process_tts synth rest).items = _
    unfold ttsSentenceItems
    simp [hs]
  · rfl

/-- Witness for C8 at a concrete input. -/
theorem C8_witness :
    (process_tts (fun _ => [[1], [2]]) [some "Hi."]).items
      = TtsItem.audioBuf [1, 2] :: TtsItem.audioEndMarker
          :: (process_tts (fun _ => [[1], [2]]) []).items
    ∧ send_tts_audio [TtsItem.audioBuf [1, 2], TtsItem.audioEndMarker, TtsItem.sessionEnd]
      = ⟨[ClientEvent.binaryFrame [1, 2], ClientEvent.audioEnd], true⟩ := by
  exact C8_sentence_audio_delivery (fun _ => [[1], [2]]) "Hi." [] (by decide)

/-- Claim C9: in the synthesis work trace of lines 190-194, every actual
synthesis chunk pull executes on the event loop; the only work unit executed
on the executor worker thread is the (lazy, body-free) generator creation.
The claimed non-blocking offload therefore offloads nothing of the synthesis
work, and the scheduler is blocked during each pull. -/
theorem C9_synthesis_offload_only_creates_generator :
    ∀ numChunks : Nat,
      (∀ i, i < numChunks →
          (TtsWorkUnit.pullSynthChunk i, ExecCtx.eventLoop) ∈ ttsOffloadTrace numChunks)
      ∧ (∀ w : TtsWorkUnit,
          (w, ExecCtx.workerThread) ∈ ttsOffloadTrace numChunks →
          w = TtsWorkUnit.createGenerator) := by
  intro n
  constructor
  · intro i hi
    exact List.mem_cons_of_mem _ (List.mem_map.mpr ⟨i, List.mem_range.mpr hi, rfl⟩)
  · intro w hw
    rcases List.mem_cons.mp hw with h | h
    · exact congrArg Prod.fst h
    · exfalso
      obtain ⟨i, _, heq⟩ := List.mem_map.mp h
      exact ExecCtx.noConfusion (congrArg Prod.snd heq)

/-- Witness for C9 at a concrete input. -/
theorem C9_witness :
    (TtsWorkUnit.pullSynthChunk 1, ExecCtx.eventLoop) ∈ ttsOffloadTrace 2 :=
  (C9_synthesis_offload_only_creates_generator 2).1 1 (by decide)

/-- Claim C10: the client-side "EndOfStream" text frame and the disconnect
cleanup place the very same `None` sentinel on the input queue, and when the
first item `_process_stt` pulls in an utterance cycle is that sentinel, the
stage breaks out of its outer loop permanently: whatever arrives afterwards,
no event is emitted, no transcriber call is made and nothing is ever pushed to
the transcript queue again. -/
theorem C10_marker_as_first_item_terminates_stage :
    (∀ msgs : List ClientMsg,
        receiveLoopItems (ClientMsg.text "EndOfStream" :: msgs)
          = none :: receiveLoopItems msgs)
    ∧ (∀ (stt : Bytes → Option String) (rest : List (Option Bytes)),
        process_stt stt (none :: rest) = ⟨[], [], [], true⟩) := by
  constructor
  · intro msgs
    simp [receiveLoopItems]
  · intro stt rest
    rfl
